import Mathlib

/-!
Verification development for the frag-camera-control repository
(`src/main.py`, `src/camera.py`).

Each definition below is a shallow embedding of a specific piece of the
Python source; the line numbers in the doc comments refer to `src/main.py`
unless stated otherwise.  Numpy arrays are modelled as index functions
`ℕ → ℕ → ℝ` (images) or as `List` values (byte buffers, signal-count
lists); Python floats are modelled as real numbers (`ℝ`) except where a
computation is exactly rational, where `ℚ` is used so that concrete
inputs can be evaluated by `decide`/`rfl`.
-/

namespace FragCam

/-! ### Frame role assignment (`CamThread`, src/main.py lines 175, 178, 195-234, 289)

`CamThread.__init__` (line 175) parses `image_order` into a list of role
strings and sets `counter_limit = num_img_to_take * len(image_order)`
(line 178).  `CamThread.run` classifies the frame acquired at sequence
counter `i` by `image_type = self.image_order[self.counter % 2]`
(line 209); a role other than `"background"` or `"signal"` hits the
`else` branch (lines 232-234), which logs a warning and `return`s from
`run`, so no further frame is processed.  The loop continues while
`counter < counter_limit` (line 195) and `counter` is incremented once
per processed frame (line 289).
-/

/-- Role assigned by the code to the frame with sequence counter `counter`:
`image_order[counter % 2]` (line 209).  `none` models the Python
`IndexError` raised when `counter % 2` is out of range. -/
def roleOf (imageOrder : List String) (counter : Nat) : Option String :=
  imageOrder.get? (counter % 2)

/-- Role formula asserted by the specification:
`image_order[counter % len(image_order)]`. -/
def roleOfSpec (imageOrder : List String) (counter : Nat) : Option String :=
  imageOrder.get? (counter % imageOrder.length)

/-- The two roles handled by `CamThread.run` (lines 219, 226). -/
def supportedRole (r : String) : Bool :=
  r == "background" || r == "signal"

/-- The frame-classification skeleton of `CamThread.run` (lines 195-234,
289): starting at `counter`, with `fuel` iterations left before
`counter_limit`, returns the `(counter, role)` list of frames actually
processed.  An unsupported role (lines 232-234) or an out-of-range index
terminates the run with no further frame processed.  Device interaction,
pairing and statistics are modelled separately below. -/
def camRoles (imageOrder : List String) : Nat → Nat → List (Nat × String)
  | _, 0 => []
  | counter, fuel + 1 =>
    match roleOf imageOrder counter with
    | some r =>
      if supportedRole r then
        (counter, r) :: camRoles imageOrder (counter + 1) fuel
      else []
    | none => []

/-- One full run of the classification loop: counters `0, 1, …` up to
`counter_limit = num_img_to_take * len(image_order)` (lines 178, 195). -/
def camRunRoles (imageOrder : List String) (numImgToTake : Nat) : List (Nat × String) :=
  camRoles imageOrder 0 (numImgToTake * imageOrder.length)

/-! ### The frame-availability wait loop (`CamThread.run`, lines 201-204)

```python
while self.parent.device.num_images_available() == 0:
    time.sleep(0.001)
```

The loop condition reads only `num_images_available()` (which returns the
length of the driver's frame queue, src/camera.py line 94); the run-active
flag `self.parent.control.active` is consulted only *after* this loop, at
line 206.  We model an execution as the trace of values returned by
successive `num_images_available()` polls; the poll at index `t` happens
exactly when every earlier poll returned `0`.  The trace of the
`control.active` flag does not appear in the loop condition — that
absence is the content of claim C2. -/

/-- Whether the wait loop performs the poll at index `t`, given the trace
of `num_images_available()` values: it does iff all earlier polls saw
`0` buffered frames.  Out-of-trace polls are treated as seeing `1`
(loop already exited). -/
def waitPollHappens (avails : List Nat) (t : Nat) : Bool :=
  (List.range t).all fun u => avails.getD u 1 == 0

/-! ### Frame-pair derivation (`CamThread.run`, lines 242-267)

Images are numpy 2-D float arrays; we model them as index functions
`Nat → Nat → ℝ`.  The region of interest is the slice
`image_post[roi["xmin"]:roi["xmax"], roi["ymin"]:roi["ymax"]]`
(lines 245-246, 254-255) and the scalar signal count is its `np.sum`. -/

/-- ROI bounds (`Control.roi`, lines 314-317). -/
structure Roi where
  xmin : Nat
  xmax : Nat
  ymin : Nat
  ymax : Nat

/-- `np.sum(image[xmin:xmax, ymin:ymax])`. -/
noncomputable def roiSum (roi : Roi) (image : Nat → Nat → ℝ) : ℝ :=
  ∑ p ∈ Finset.Ico roi.xmin roi.xmax, ∑ q ∈ Finset.Ico roi.ymin roi.ymax, image p q

/-- `np.clip(x, 1, None)` applied elementwise (lines 250-251). -/
def clip1 (x : ℝ) : ℝ := max x 1

/-- Constant test image (used by concrete witnesses below). -/
def constImg (c : ℝ) : Nat → Nat → ℝ := fun _ _ => c

/-- Fluorescence derivation (line 244): `image_post = image_signal - image_bg`. -/
def fluorPost (sig bg : Nat → Nat → ℝ) : Nat → Nat → ℝ :=
  fun p q => sig p q - bg p q

/-- Fluorescence signal count (line 248): `sc = np.sum(image_post_roi)`. -/
noncomputable def fluorSc (sig bg : Nat → Nat → ℝ) (roi : Roi) : ℝ :=
  roiSum roi (fluorPost sig bg)

/-- Absorption derivation (lines 250-253): both inputs are clipped to a
minimum of 1, then `image_post = -np.log(image_signal / image_bg)`. -/
noncomputable def absorptionPost (sig bg : Nat → Nat → ℝ) : Nat → Nat → ℝ :=
  fun p q => - Real.log (clip1 (sig p q) / clip1 (bg p q))

/-- Absorption signal count (line 256):
`sc = np.sum(image_post_roi) * pixeltomm**2 / cross_section`. -/
noncomputable def absorptionSc (sig bg : Nat → Nat → ℝ) (roi : Roi)
    (pixeltomm crossSection : ℝ) : ℝ :=
  roiSum roi (absorptionPost sig bg) * pixeltomm ^ 2 / crossSection

/-! ### Signal-count statistics (lines 269-284 and `Control.img_ctrl_update`, lines 827-842)

`np.mean` is the arithmetic mean; `np.std` is the population standard
deviation (`ddof = 0`), i.e. `sqrt(mean((x - mean(x))**2))`; both record
and scan mode divide the standard deviation by the square root of the
number of contributing counts (`np.sqrt(num)` at line 277 with
`num = len(signal_count_list)`, `np.sqrt(len(sc_list))` at line 834). -/

/-- `np.mean(l)`. -/
noncomputable def meanOf (l : List ℝ) : ℝ := l.sum / l.length

/-- `np.std(l)` (population standard deviation, `ddof = 0`). -/
noncomputable def stdOf (l : List ℝ) : ℝ :=
  Real.sqrt ((l.map fun x => (x - meanOf l) ^ 2).sum / l.length)

/-- `np.std(l) / np.sqrt(len(l))`, the standard error reported by the code. -/
noncomputable def stderrOf (l : List ℝ) : ℝ :=
  stdOf l / Real.sqrt l.length

/-- Scan-mode bin update (lines 280-283): append the signal count to the
bin whose key is *exactly* the current scan-parameter string, creating a
new bin at the end on a missing key (Python dicts preserve insertion
order). -/
def scanUpdate : List (String × List ℝ) → String → ℝ → List (String × List ℝ)
  | [], param, sc => [(param, [sc])]
  | (k, l) :: rest, param, sc =>
    if k = param then (k, l ++ [sc]) :: rest
    else (k, l) :: scanUpdate rest param sc

/-- Insertion step of the ascending sort on the parsed parameter value
(modelling the `x.argsort()` reordering at lines 836-839). -/
def insertTriple (x : ℚ × ℝ × ℝ) : List (ℚ × ℝ × ℝ) → List (ℚ × ℝ × ℝ)
  | [] => [x]
  | y :: ys => if x.1 ≤ y.1 then x :: y :: ys else y :: insertTriple x ys

/-- Sort a list of `(parameter, mean, stderr)` triples ascending by
parameter value. -/
def sortTriples (l : List (ℚ × ℝ × ℝ)) : List (ℚ × ℝ × ℝ) :=
  l.foldr insertTriple []

/-- Scan-mode aggregate emission (lines 828-839): for each bin, in
insertion order, parse the key with Python `float` (modelled by the
supplied `parseVal` function), compute `np.mean` and
`np.std/np.sqrt(len)`, then sort the triples ascending by parsed
parameter value before exposing them. -/
noncomputable def scanEmit (parseVal : String → ℚ) (d : List (String × List ℝ)) :
    List (ℚ × ℝ × ℝ) :=
  sortTriples (d.map fun kv => (parseVal kv.1, meanOf kv.2, stderrOf kv.2))

/-- A concrete stand-in for Python `float` string parsing, defined on the
two keys used by the concrete scan-mode scenario. -/
def parseValEx : String → ℚ := fun s => if s = "1" then 1 else 10

/-- The scan-bin state reached from an empty dictionary by the appends
`(p1, 1), (p1, 2), (p1, 3), (p2, 10)` (concrete keys `"1"`, `"10"`). -/
def scanDictEx : List (String × List ℝ) :=
  scanUpdate (scanUpdate (scanUpdate (scanUpdate [] "1" 1) "1" 2) "1" 3) "10" 10

/-! ### Record-mode running statistics (`CamThread.run`, lines 269-277)

`num` (line 236) is `int(counter/len(image_order) + 1)`; on the pair
with odd counter `2n-1` (and `image_order` of length 2) this equals `n`,
the number of pairs processed so far — i.e. the length of
`signal_count_list` after the append at line 271.  The running average
image (line 273) is `np.average([old, new], weights=[(n-1)/n, 1/n])`,
i.e. the weighted sum divided by the sum of the weights. -/

/-- Record-mode accumulator: the signal-count list and the running
average image. -/
structure RecState where
  scs : List ℝ
  imgAve : Nat → Nat → ℝ

/-- One record-mode update (lines 269-277): append `sc` to
`signal_count_list`, then recompute the average image with weights
`(n-1)/n` and `1/n`, where `n = num` is the new list length. -/
noncomputable def recStep (st : RecState) (imagePost : Nat → Nat → ℝ) (sc : ℝ) :
    RecState :=
  let scs := st.scs ++ [sc]
  let n : ℝ := scs.length
  { scs := scs
    imgAve := fun p q =>
      ((n - 1) / n * st.imgAve p q + 1 / n * imagePost p q)
        / ((n - 1) / n + 1 / n) }

/-- A record-mode run over a list of `(image_post, sc)` pairs, starting
from the zero accumulator (`np.zeros`, line 184, and the empty list,
line 183). -/
noncomputable def runRecord (pairs : List ((Nat → Nat → ℝ) × ℝ)) : RecState :=
  pairs.foldl (fun st pr => recStep st pr.1 pr.2) ⟨[], constImg 0⟩

/-- Concrete single-pair record-mode run (used by the witness below). -/
noncomputable def pairEx : List ((Nat → Nat → ℝ) × ℝ) := [(constImg 2, 5)]

/-! ### The Gaussian-fit moment estimation (`gaussianfit`, lines 35-63)

The moment phase (lines 36-48) is exactly rational, so the fit region is
modelled as `List (List ℚ)` (row-major, rectangular, nonempty — it is the
ROI slice of `image_post`).  The subsequent `optimize.leastsq` call
(line 52) is an external scipy collaborator that only consumes the seed,
so the model stops after the moment phase.  Division semantics follow
numpy/Python: when `total = np.sum(data) = 0`, line 39 computes the IEEE
non-finite `0/0`; `np.clip` keeps it non-finite and `int(y_mean)` at
line 43 then raises an *untyped* `ValueError` — modelled as
`Except.error PyErr.valueError`.  When only a selected column/row sum is
zero (lines 44, 46), the scalar division yields a non-finite float
*without raising*; the corresponding squared width is modelled as
`none`.  There is no guard and no typed `FitDegenerate` value anywhere
in the source. -/

/-- The single Python exception kind relevant here (`int(nan)` raises
`ValueError`). -/
inductive PyErr
  | valueError
  deriving DecidableEq

/-- Equality of `Except` results is decidable when both component types
have decidable equality (used to evaluate the model on concrete fit
regions). -/
instance {ε α : Type} [DecidableEq ε] [DecidableEq α] :
    DecidableEq (Except ε α) := fun x y =>
  match x, y with
  | Except.error a, Except.error b =>
    if h : a = b then isTrue (by rw [h])
    else isFalse (by intro he; injection he with h2; exact h h2)
  | Except.ok a, Except.ok b =>
    if h : a = b then isTrue (by rw [h])
    else isFalse (by intro he; injection he with h2; exact h h2)
  | Except.error _, Except.ok _ => isFalse (by intro he; exact Except.noConfusion he)
  | Except.ok _, Except.error _ => isFalse (by intro he; exact Except.noConfusion he)

/-- Result of the moment phase: means, the (squared) width-estimate
arguments of the two `np.sqrt` calls (`none` = non-finite from a zero
denominator), border offset and amplitude. -/
structure GfMoments where
  x_mean : ℚ
  y_mean : ℚ
  x_width_sq : Option ℚ
  y_width_sq : Option ℚ
  offset : ℚ
  amp : ℚ
  deriving DecidableEq

/-- `np.clip(x, lo, hi)` for rationals. -/
def clipQ (x lo hi : ℚ) : ℚ := min (max x lo) hi

/-- Python `int()` of a nonnegative rational (truncation = floor). -/
def natFloor (q : ℚ) : Nat := (⌊q⌋).toNat

/-- `np.sum(data)` for a row-major rational matrix. -/
def totalOf (data : List (List ℚ)) : ℚ := (data.map List.sum).sum

/-- `np.sum(X*data)` (line 39): row index times entry, summed. -/
def xWeighted (data : List (List ℚ)) : ℚ :=
  ((List.range data.length).map fun (i : Nat) => (i : ℚ) * (data.getD i []).sum).sum

/-- Column `j` sum of the matrix. -/
def colSumAt (data : List (List ℚ)) (j : Nat) : ℚ :=
  (data.map fun row => row.getD j 0).sum

/-- `np.sum(Y*data)` (line 41): column index times entry, summed. -/
def yWeighted (data : List (List ℚ)) : ℚ :=
  ((List.range (data.headD []).length).map fun (j : Nat) => (j : ℚ) * colSumAt data j).sum

/-- `data.max()` (line 48); fit regions are nonempty, so the default for
the empty case is never reached. -/
def maxOf (data : List (List ℚ)) : ℚ :=
  ((data.foldr (fun r acc => r ++ acc) []).max?).getD 0

/-- The moment phase of `gaussianfit` (lines 36-48), with numpy division
semantics as described above. -/
def gaussianfitMoments (data : List (List ℚ)) : Except PyErr GfMoments :=
  let total := totalOf data
  if total = 0 then
    Except.error PyErr.valueError
  else
    let rows := data.length
    let cols := (data.headD []).length
    let x_mean := clipQ (xWeighted data / total) 0 ((rows : ℚ) - 1)
    let y_mean := clipQ (yWeighted data / total) 0 ((cols : ℚ) - 1)
    let col := data.map fun row => row.getD (natFloor y_mean) 0
    let x_width_sq :=
      if col.sum = 0 then none
      else some ((((List.range col.length).map
        fun (i : Nat) => |((i : ℚ) - x_mean) ^ 2 * col.getD i 0|).sum) / col.sum)
    let row := data.getD (natFloor x_mean) []
    let y_width_sq :=
      if row.sum = 0 then none
      else some ((((List.range row.length).map
        fun (j : Nat) => |((j : ℚ) - y_mean) ^ 2 * row.getD j 0|).sum) / row.sum)
    let offset := ((data.headD []).sum + (data.getLastD []).sum
      + (data.map fun r => r.getD 0 0).sum
      + (data.map fun r => r.getLastD 0).sum) / ((rows : ℚ) + (cols : ℚ)) / 2
    Except.ok ⟨x_mean, y_mean, x_width_sq, y_width_sq, offset, maxOf data - offset⟩

/-- The fitting part of `Control.img_ctrl_update` (lines 881-899):
`gaussianfit` is called with no `try/except` whenever the fit checkbox is
enabled, so any exception it raises propagates out of the slot. -/
def imgCtrlUpdateFit (gaussianFit : Bool) (region : List (List ℚ)) :
    Except PyErr (Option GfMoments) :=
  if gaussianFit then (gaussianfitMoments region).map some
  else Except.ok none

/-! ### Frame persistence (`Control.img_ctrl_update`, lines 901-937)

Each saved frame becomes one HDF5 dataset (lines 913-937).  The dataset
name is `"image" + "_{:06d}".format(counter)`, compression is gzip at
level 4, and the attributes are written unconditionally except for the
Gaussian-fit parameters, which are written only under
`self.gaussian_fit and (img_type == "image")` (line 935) — although the
`type` field emitted by `CamThread` is always `"background"` or
`"signal"` (lines 221, 228; the comment at line 791 still documents the
stale values `"image"`/`"bkg"`). -/

/-- An HDF5 attribute value (string, integer or float). -/
inductive AttrVal
  | str (s : String)
  | nat (n : Nat)
  | real (x : ℝ)

/-- The dataset produced by one save (name, image data, compression and
attribute list, in write order). -/
structure HdfDataset where
  name : String
  dataImg : Nat → Nat → ℝ
  compression : String
  compressionOpts : Nat
  attrs : List (String × AttrVal)

/-- `"{:06d}".format(n)`: decimal, left-padded with zeros to width 6. -/
def pad6 (n : Nat) : String :=
  String.mk (List.replicate (6 - (toString n).length) '0') ++ toString n

/-- The dataset-creation block (lines 913-937). -/
def saveDataset (measMode : String) (roi : Roi) (gaussianFit : Bool)
    (imgType : String) (counter : Nat) (img : Nat → Nat → ℝ)
    (fitParams : List (String × ℝ)) : HdfDataset :=
  { name := "image" ++ "_" ++ pad6 counter
    dataImg := img
    compression := "gzip"
    compressionOpts := 4
    attrs :=
      [("measurement type", AttrVal.str measMode),
       ("region of interest: xmin", AttrVal.nat roi.xmin),
       ("region of interest: xmax", AttrVal.nat roi.xmax),
       ("region of interest: ymin", AttrVal.nat roi.ymin),
       ("region of interest: ymax", AttrVal.nat roi.ymax),
       ("CLASS", AttrVal.str "IMAGE"),
       ("IMAGE_VERSION", AttrVal.str "1.2"),
       ("IMAGE_SUBCLASS", AttrVal.str "IMAGE_GRAYSCALE"),
       ("IMAGE_WHITE_IS_ZERO", AttrVal.nat 0)]
      ++ (if gaussianFit && (imgType == "image")
          then fitParams.map fun kv => ("2D gaussian fit" ++ kv.1, AttrVal.real kv.2)
          else []) }

/-! ### The absorption branch as a state transformer (`CamThread.run`, lines 219-231, 250-256)

`img_dict["image"]` is bound to the raw frame array when the frame
arrives (lines 223, 230).  `np.clip(arr, 1, None)` (lines 250-251)
allocates a *new* array (no `out=` argument, no in-place method), so the
assignments rebind `self.image_bg` / `self.image_signal` to clipped
copies while `img_dict["image"]` still references the original raw
array, which is what line 915 later writes to the HDF5 dataset. -/

/-- The slice of `CamThread` state relevant to the absorption branch. -/
structure CamPairState where
  image_bg : Nat → Nat → ℝ
  image_signal : Nat → Nat → ℝ
  imgDictImage : Nat → Nat → ℝ

/-- Lines 250-253: rebind the two attributes to clipped copies and
compute `image_post` from the clipped copies; returns the new state and
the derived image. -/
noncomputable def absorptionBranch (st : CamPairState) :
    CamPairState × (Nat → Nat → ℝ) :=
  let bg := fun p q => clip1 (st.image_bg p q)
  let sg := fun p q => clip1 (st.image_signal p q)
  (⟨bg, sg, st.imgDictImage⟩, fun p q => - Real.log (sg p q / bg p q))

/-! ### The TCP control-protocol server (`TcpThread`, lines 66-157)

`TcpThread.run` multiplexes a listening socket and its accepted
connections; for a readable connection it calls `recv` (line 101),
appends the bytes to `self.data` (line 106) and runs the two-phase
reassembly loop (lines 107-146): while the buffer is nonempty, if no
length has been read and at least 4 bytes are buffered, the big-endian
length prefix is unpacked and stripped (lines 108-111); otherwise, if a
length has been read and at least that many bytes are buffered, the
**entire buffer** is decoded as UTF-8 (line 113), dispatched
(lines 115-137), and `length` bytes are consumed (lines 143-144);
otherwise the loop breaks.  An empty `recv` result is client shutdown:
the buffer and phase flag are reset (lines 147-153).  Bytes are modelled
as `Nat` values (< 256); payload decoding is modelled on the ASCII
fragment of UTF-8, over which `encode`/`decode` are the identity on
bytes. -/

/-- `struct.pack(">I", n)`: 4-byte big-endian encoding of a length. -/
def beBytes4 (n : Nat) : List Nat :=
  [n / 2 ^ 24 % 256, n / 2 ^ 16 % 256, n / 2 ^ 8 % 256, n % 256]

/-- `struct.unpack(">I", bs)[0]` of the first 4 buffered bytes (line 109). -/
def beUint32 (bs : List Nat) : Nat :=
  bs.getD 0 0 * 2 ^ 24 + bs.getD 1 0 * 2 ^ 16 + bs.getD 2 0 * 2 ^ 8 + bs.getD 3 0

/-- `str.encode('utf-8')` for ASCII strings (byte-for-byte identical to
UTF-8 on code points below 128). -/
def encStr (s : String) : List Nat := s.data.map Char.toNat

/-- `bytes.decode('utf-8')` on an ASCII buffer; `none` stands for the
bytes this model does not cover (≥ 128). -/
def decStr (bs : List Nat) : Option String :=
  if bs.all (· < 128) then some (String.mk (bs.map Char.ofNat)) else none

/-- The reassembly state: `self.data` (line 76), `self.length_get`
(line 77) and `self.length` (line 109; 0 before first use). -/
structure TcpState where
  data : List Nat
  lengthGet : Bool
  length : Nat
  deriving DecidableEq

/-- One dispatched action (lines 115-137): a `"Status?"` reply carrying
the pipeline state, the stop signal (no reply), a scan-configuration
write (payload written verbatim to the scan file, start signal emitted,
`"Received"` replied), or a decode failure. -/
inductive TcpAction
  | statusReply (r : String)
  | stopSignal
  | scanConfig (payload : String)
  | decodeFailure
  deriving DecidableEq

/-- The dispatch table (lines 115-137). -/
def dispatch (active : Bool) (msg : String) : TcpAction :=
  if msg = "Status?" then TcpAction.statusReply (if active then "Running" else "Idle")
  else if msg = "Stop" then TcpAction.stopSignal
  else TcpAction.scanConfig msg

/-- The inner `while len(self.data) > 0` reassembly loop (lines 107-146).
Note that the dispatched message is the decode of the *entire* buffer
(line 113) while only `self.length` bytes are consumed (line 143). -/
def tcpLoop (active : Bool) (st : TcpState) : TcpState × List TcpAction :=
  if 0 < st.data.length then
    if h1 : st.lengthGet = false ∧ 4 ≤ st.data.length then
      tcpLoop active ⟨st.data.drop 4, true, beUint32 (st.data.take 4)⟩
    else if h2 : st.lengthGet = true ∧ st.length ≤ st.data.length then
      match decStr st.data with
      | some msg =>
        let rest := tcpLoop active ⟨st.data.drop st.length, false, st.length⟩
        (rest.1, dispatch active msg :: rest.2)
      | none => (st, [TcpAction.decodeFailure])
    else (st, [])
  else (st, [])
termination_by 3 * st.data.length + (if st.lengthGet then 2 else 1)
decreasing_by
  · obtain ⟨hflag, hlen4⟩ := h1
    simp [hflag]
    omega
  · obtain ⟨hflag, hlenok⟩ := h2
    simp [hflag]
    omega

/-- Handling of one `recv` result (lines 100-153): nonempty data is
appended to the buffer and the loop runs; empty data is client shutdown,
which resets the buffer and the phase flag (lines 147-153). -/
def tcpRecv (active : Bool) (st : TcpState) (chunk : List Nat) :
    TcpState × List TcpAction :=
  if chunk = [] then (⟨[], false, st.length⟩, [])
  else tcpLoop active ⟨st.data ++ chunk, st.lengthGet, st.length⟩

/-- A sequence of `recv` deliveries on one connection, with the actions
emitted in order. -/
def tcpRun (active : Bool) (st : TcpState) : List (List Nat) → TcpState × List TcpAction
  | [] => (st, [])
  | c :: cs =>
    ((tcpRun active (tcpRecv active st c).1 cs).1,
     (tcpRecv active st c).2 ++ (tcpRun active (tcpRecv active st c).1 cs).2)

/-- Initial reassembly state (lines 76-77). -/
def tcpInit : TcpState := ⟨[], false, 0⟩

/-- The wire encoding of one message: 4-byte big-endian payload length
followed by the payload. -/
def encodeMsg (msg : String) : List Nat := beBytes4 (encStr msg).length ++ encStr msg

/-- The per-message dispatch sequence asserted by the specification: one
action per encoded message, in order. -/
def specActions (active : Bool) (msgs : List String) : List TcpAction :=
  msgs.map (dispatch active)

/-- Helper: full characterisation of `camRoles`.  A pair `(k, s)` is
produced iff `k` lies in the window `[c, c + fuel)`, every counter from
`c` up to `k` (inclusive) carries a supported role, and `s` is
`imageOrder[k % 2]`. -/
theorem camRoles_mem (imageOrder : List String) :
    ∀ fuel c k s, (k, s) ∈ camRoles imageOrder c fuel ↔
      (c ≤ k ∧ k < c + fuel ∧
        (∀ j, c ≤ j → j ≤ k → (roleOf imageOrder j).map supportedRole = some true) ∧
        s = ((imageOrder.get? (k % 2)).getD "")) := by
  intro fuel
  induction fuel with
  | zero =>
    intro c k s
    simp only [camRoles, List.not_mem_nil, false_iff]
    rintro ⟨h1, h2, -, -⟩
    omega
  | succ fuel ih =>
    intro c k s
    cases h : roleOf imageOrder c with
    | none =>
      simp only [camRoles, h, List.not_mem_nil, false_iff]
      rintro ⟨h1, -, h3, -⟩
      have hc := h3 c le_rfl h1
      rw [h] at hc
      simp at hc
    | some r =>
      by_cases hs : supportedRole r = true
      · rw [camRoles, h]
        dsimp only
        rw [if_pos hs]
        simp only [List.mem_cons, Prod.mk.injEq]
        constructor
        · rintro (⟨hkc, hsr⟩ | hp)
          · subst hkc
            refine ⟨le_rfl, by omega, ?_, ?_⟩
            · intro j hj1 hj2
              obtain rfl : j = k := le_antisymm hj2 hj1
              rw [h, Option.map_some']
              simp [hs]
            · have hg : imageOrder.get? (k % 2) = some r := h
              rw [hg, ← hsr]
              rfl
          · obtain ⟨g1, g2, g3, g4⟩ := (ih (c + 1) k s).mp hp
            refine ⟨by omega, by omega, ?_, g4⟩
            intro j hj1 hj2
            rcases Nat.eq_or_lt_of_le hj1 with rfl | hlt
            · rw [h, Option.map_some']
              simp [hs]
            · exact g3 j (by omega) hj2
        · rintro ⟨g1, g2, g3, g4⟩
          rcases Nat.eq_or_lt_of_le g1 with heq | hlt
          · left
            have hg : imageOrder.get? (k % 2) = some r := by
              rw [← heq]
              exact h
            refine ⟨heq.symm, ?_⟩
            rw [g4, hg]
            rfl
          · right
            exact (ih (c + 1) k s).mpr
              ⟨by omega, by omega, fun j hj1 hj2 => g3 j (by omega) hj2, g4⟩
      · rw [camRoles, h]
        dsimp only
        rw [if_neg hs]
        simp only [List.not_mem_nil, false_iff]
        rintro ⟨g1, -, g3, -⟩
        have hc := g3 c le_rfl g1
        rw [h, Option.map_some'] at hc
        simp [hs] at hc

/-- C1 counterexample: with `image_order = ["background", "signal",
"signal"]` and `num_images_to_take = 1`, the frame with sequence counter
2 is processed with role `"background"` (`image_order[2 % 2]`), whereas
the claimed formula `image_order[2 % 3]` yields `"signal"`. -/
theorem role_mod_len_counterexample :
    (2, "background") ∈ camRunRoles ["background", "signal", "signal"] 1 ∧
    roleOfSpec ["background", "signal", "signal"] 2 ≠ some "background" := by
  decide

/-- C1 (amended): the role assigned to the frame with sequence counter
`i` is `image_order[i % 2]` (which agrees with
`image_order[i % len(image_order)]` exactly when `len(image_order) = 2`);
only `"background"` and `"signal"` are supported; and frame `k` is
processed iff it is below the counter limit and every frame up to and
including `k` carries a supported role — so an unsupported role aborts
the run with no further frame processed. -/
theorem role_assignment_amended (imageOrder : List String) (numImgToTake : Nat) :
    (∀ p ∈ camRunRoles imageOrder numImgToTake,
        roleOf imageOrder p.1 = some p.2 ∧ supportedRole p.2 = true) ∧
    (∀ k, (∃ r, (k, r) ∈ camRunRoles imageOrder numImgToTake) ↔
        (k < numImgToTake * imageOrder.length ∧
         ∀ j ≤ k, (roleOf imageOrder j).map supportedRole = some true)) := by
  constructor
  · rintro ⟨k, s⟩ hp
    obtain ⟨-, -, h3, h4⟩ := (camRoles_mem imageOrder _ 0 k s).mp hp
    have hk := h3 k (Nat.zero_le k) le_rfl
    obtain ⟨r, hg, hsr⟩ := Option.map_eq_some'.mp hk
    have hgd : ((imageOrder.get? (k % 2)).getD "") = r := by
      have hg' : imageOrder.get? (k % 2) = some r := hg
      rw [hg']
      rfl
    have hs : s = r := h4.trans hgd
    exact ⟨by rw [hg, hs], by rw [hs]; exact hsr⟩
  · intro k
    constructor
    · rintro ⟨r, hr⟩
      obtain ⟨-, h2, h3, -⟩ := (camRoles_mem imageOrder _ 0 k r).mp hr
      exact ⟨by omega, fun j hj => h3 j (Nat.zero_le j) hj⟩
    · rintro ⟨h1, h2⟩
      exact ⟨_, (camRoles_mem imageOrder _ 0 k _).mpr
        ⟨Nat.zero_le k, by omega, fun j _ hj => h2 j hj, rfl⟩⟩

/-- C2 (code evaluation at the failing input): with an availability trace
in which no frame is buffered for the first two polls, the wait loop
performs the polls at indices 1 and 2 unconditionally — its condition
consults only `num_images_available()`, so the same polls happen even
when the run-active flag was cleared before poll 1; the claim that every
poll checks the `should_continue` flag (so that no poll follows a
cleared flag) is false of the code. -/
theorem wait_poll_after_stop :
    waitPollHappens [0, 0, 1] 1 = true ∧ waitPollHappens [0, 0, 1] 2 = true ∧
    ¬ (∀ (actives : List Bool) (t u : Nat), u < t →
        actives.getD u true = false → waitPollHappens [0, 0, 1] t = false) := by
  refine ⟨by decide, by decide, fun h => ?_⟩
  have := h [false] 1 0 (by omega) rfl
  simp [waitPollHappens] at this

/-! ### Statistics helper lemmas -/

lemma meanOf_example : meanOf [(1 : ℝ), 2, 3] = 2 := by
  norm_num [meanOf]

lemma stdOf_example : stdOf [(1 : ℝ), 2, 3] = Real.sqrt (2 / 3) := by
  unfold stdOf
  rw [meanOf_example]
  norm_num

lemma stderrOf_example : stderrOf [(1 : ℝ), 2, 3] = Real.sqrt 2 / 3 := by
  unfold stderrOf
  rw [stdOf_example]
  have h3 : (([(1 : ℝ), 2, 3].length : ℕ) : ℝ) = 3 := by norm_num
  rw [h3, Real.sqrt_div (by norm_num : (0 : ℝ) ≤ 2) 3, div_div,
    Real.mul_self_sqrt (by norm_num : (0 : ℝ) ≤ 3)]

lemma meanOf_single (x : ℝ) : meanOf [x] = x := by
  simp [meanOf]

lemma stderrOf_single (x : ℝ) : stderrOf [x] = 0 := by
  unfold stderrOf stdOf
  rw [meanOf_single]
  simp

lemma scanDictEx_eq : scanDictEx = [("1", [(1 : ℝ), 2, 3]), ("10", [(10 : ℝ)])] := by
  simp [scanDictEx, scanUpdate]

lemma meanOf_replicate (n : ℕ) (hn : n ≠ 0) (c : ℝ) :
    meanOf (List.replicate n c) = c := by
  unfold meanOf
  rw [List.sum_replicate, List.length_replicate, nsmul_eq_mul]
  have hnR : (n : ℝ) ≠ 0 := Nat.cast_ne_zero.mpr hn
  field_simp

lemma stderrOf_replicate (n : ℕ) (hn : n ≠ 0) (c : ℝ) :
    stderrOf (List.replicate n c) = 0 := by
  unfold stderrOf stdOf
  rw [List.map_replicate, meanOf_replicate n hn c]
  simp

lemma runRecord_scs (pairs : List ((Nat → Nat → ℝ) × ℝ)) :
    (runRecord pairs).scs = pairs.map Prod.snd := by
  suffices h : ∀ (l : List ((Nat → Nat → ℝ) × ℝ)) (st : RecState),
      (l.foldl (fun st pr => recStep st pr.1 pr.2) st).scs = st.scs ++ l.map Prod.snd by
    simpa using h pairs ⟨[], constImg 0⟩
  intro l
  induction l with
  | nil => intro st; simp
  | cons x xs ih =>
    intro st
    rw [List.foldl_cons, ih]
    simp [recStep]

lemma runRecord_ave :
    ∀ pairs : List ((Nat → Nat → ℝ) × ℝ), pairs ≠ [] →
      (runRecord pairs).imgAve
        = fun p q => ((pairs.map fun pr => pr.1 p q).sum) / (pairs.length : ℝ) := by
  intro pairs
  induction pairs using List.reverseRecOn with
  | nil => intro h; exact absurd rfl h
  | append_singleton l x ih =>
    intro _
    have hstep : runRecord (l ++ [x]) = recStep (runRecord l) x.1 x.2 := by
      unfold runRecord
      rw [List.foldl_append]
      rfl
    by_cases hl : l = []
    · subst hl
      rw [hstep]
      funext p q
      simp only [recStep, runRecord, List.foldl_nil, List.nil_append,
        List.map_cons, List.map_nil, List.sum_cons, List.sum_nil,
        List.length_cons, List.length_nil, List.length_singleton, constImg]
      norm_num
    · rw [hstep]
      funext p q
      have hkpos : 0 < l.length := List.length_pos.mpr hl
      have hkR : (0 : ℝ) < (l.length : ℝ) := by exact_mod_cast hkpos
      have hlen : (runRecord l).scs.length = l.length := by
        rw [runRecord_scs]
        simp
      have hav := congrFun (congrFun (ih hl) p) q
      simp only [recStep, List.length_append, hlen, List.length_singleton]
      rw [hav]
      rw [List.map_append, List.sum_append]
      simp only [List.map_cons, List.map_nil, List.sum_cons, List.sum_nil,
        List.length_append, List.length_singleton]
      have hcast : ((l.length + 1 : ℕ) : ℝ) = (l.length : ℝ) + 1 := by push_cast; ring
      rw [hcast]
      have hk1 : (l.length : ℝ) + 1 ≠ 0 := by positivity
      field_simp
      ring

/-- C4: in absorption mode both inputs are clipped to a minimum of 1
before the derived image `-ln(signal/background)` is computed, and the
signal count is the ROI sum times `pixeltomm²/cross_section`
(lines 250-256); consequently, when the signal frame equals the
background frame (all pixels ≥ 1), the derived image is identically zero
and the signal count is zero. -/
theorem absorption_derivation (sig bg : Nat → Nat → ℝ) (roi : Roi)
    (pixeltomm crossSection : ℝ)
    (hge : ∀ p q, 1 ≤ sig p q) (heq : bg = sig) :
    (∀ p q, absorptionPost sig bg p q
        = - Real.log (clip1 (sig p q) / clip1 (bg p q))) ∧
    absorptionSc sig bg roi pixeltomm crossSection
        = roiSum roi (absorptionPost sig bg) * pixeltomm ^ 2 / crossSection ∧
    absorptionPost sig bg = constImg 0 ∧
    absorptionSc sig bg roi pixeltomm crossSection = 0 := by
  have hpost : absorptionPost sig bg = constImg 0 := by
    funext p q
    have hb : bg p q = sig p q := by rw [heq]
    have h1 : clip1 (sig p q) ≠ 0 := by
      have hx := hge p q
      unfold clip1
      intro hzero
      have hcontra : (1 : ℝ) ≤ 0 := by
        calc (1 : ℝ) ≤ max (sig p q) 1 := le_max_right _ _
        _ = 0 := hzero
      linarith
    simp [absorptionPost, hb, div_self h1, constImg]
  refine ⟨fun p q => rfl, rfl, hpost, ?_⟩
  rw [absorptionSc, hpost]
  simp [roiSum, constImg]

/-- C4 witness: concrete instance with `sig = bg = 2` on every pixel. -/
theorem absorption_derivation_witness :
    ((∀ p q : Nat, (1 : ℝ) ≤ constImg 2 p q) ∧ constImg 2 = constImg 2) ∧
    ((∀ p q, absorptionPost (constImg 2) (constImg 2) p q
        = - Real.log (clip1 (constImg 2 p q) / clip1 (constImg 2 p q))) ∧
      absorptionSc (constImg 2) (constImg 2) ⟨0, 1, 0, 1⟩ 3 5
        = roiSum ⟨0, 1, 0, 1⟩ (absorptionPost (constImg 2) (constImg 2)) * 3 ^ 2 / 5 ∧
      absorptionPost (constImg 2) (constImg 2) = constImg 0 ∧
      absorptionSc (constImg 2) (constImg 2) ⟨0, 1, 0, 1⟩ 3 5 = 0) :=
  ⟨⟨fun _ _ => by norm_num [constImg], rfl⟩,
    absorption_derivation (constImg 2) (constImg 2) ⟨0, 1, 0, 1⟩ 3 5
      (fun _ _ => by norm_num [constImg]) rfl⟩

/-- C5: in fluorescence mode the derived image is the elementwise
difference `signal - background` and the signal count is its ROI sum
(lines 244-248); for all-zero inputs both are zero for every ROI. -/
theorem fluorescence_derivation (sig bg : Nat → Nat → ℝ) (roi : Roi)
    (hs : sig = constImg 0) (hb : bg = constImg 0) :
    (∀ p q, fluorPost sig bg p q = sig p q - bg p q) ∧
    fluorSc sig bg roi = roiSum roi (fluorPost sig bg) ∧
    fluorPost sig bg = constImg 0 ∧
    fluorSc sig bg roi = 0 := by
  have hpost : fluorPost sig bg = constImg 0 := by
    funext p q
    simp [fluorPost, hs, hb, constImg]
  refine ⟨fun p q => rfl, rfl, hpost, ?_⟩
  rw [fluorSc, hpost]
  simp [roiSum, constImg]

/-- C5 witness: concrete all-zero images on a concrete ROI. -/
theorem fluorescence_derivation_witness :
    (constImg 0 = constImg 0 ∧ constImg 0 = constImg 0) ∧
    ((∀ p q, fluorPost (constImg 0) (constImg 0) p q
        = constImg 0 p q - constImg 0 p q) ∧
      fluorSc (constImg 0) (constImg 0) ⟨0, 2, 0, 2⟩
        = roiSum ⟨0, 2, 0, 2⟩ (fluorPost (constImg 0) (constImg 0)) ∧
      fluorPost (constImg 0) (constImg 0) = constImg 0 ∧
      fluorSc (constImg 0) (constImg 0) ⟨0, 2, 0, 2⟩ = 0) :=
  ⟨⟨rfl, rfl⟩,
    fluorescence_derivation (constImg 0) (constImg 0) ⟨0, 2, 0, 2⟩ rfl rfl⟩

/-- Helper: concrete scan-mode emission for the bins
`{"1": [1,2,3], "10": [10]}`: the first bin's reported standard error is
`np.std([1,2,3])/sqrt(3) = sqrt(2/3)/sqrt(3) = sqrt(2)/3`. -/
lemma scanEmit_example :
    scanEmit parseValEx scanDictEx = [(1, 2, Real.sqrt 2 / 3), (10, 10, 0)] := by
  rw [scanDictEx_eq]
  unfold scanEmit
  simp only [List.map_cons, List.map_nil]
  rw [meanOf_example, stderrOf_example, meanOf_single, stderrOf_single]
  have hp1 : parseValEx "1" = 1 := rfl
  have hp2 : parseValEx "10" = 10 := rfl
  rw [hp1, hp2]
  norm_num [sortTriples, insertTriple]

/-- C6 counterexample: with bins `{"1": [1,2,3], "10": [10]}` the emitted
ordered output is `[(1, 2, sqrt(2)/3), (10, 10, 0)]`; the first bin's
standard error `sqrt(2)/3 ≈ 0.4714` is not within `0.01` of the claimed
`0.577` (the claim's value is the sample standard error, `ddof = 1`,
whereas `np.std` at line 834 uses the population convention, `ddof = 0`). -/
theorem scan_stderr_counterexample :
    scanEmit parseValEx scanDictEx = [(1, 2, Real.sqrt 2 / 3), (10, 10, 0)] ∧
    ¬ |Real.sqrt 2 / 3 - 0.577| ≤ 0.01 := by
  refine ⟨scanEmit_example, fun habs => ?_⟩
  have h1 : Real.sqrt 2 < 1.5 := by
    nlinarith [Real.sq_sqrt (by norm_num : (0 : ℝ) ≤ 2), Real.sqrt_nonneg 2]
  rw [abs_le] at habs
  have h2 := habs.1
  nlinarith

/-- C6 (amended): each incoming signal count is appended to the bin
selected by exact string match of the scan-parameter value, and the
emitted aggregate lists one `(parameter, mean, stderr)` triple per bin
sorted ascending by numeric parameter value; for bins
`{p1: [1,2,3], p2: [10]}` with `p1 < p2` numerically the output is
`[(p1, 2.0, sqrt(2)/3 ≈ 0.4714), (p2, 10.0, 0.0)]` — the standard error
is `np.std(bin)/sqrt(len(bin))` with the population standard deviation,
not the claimed `≈ 0.577`. -/
theorem scan_emission_amended (parseVal : String → ℚ) (p1 p2 : String)
    (hne : p1 ≠ p2) (hlt : parseVal p1 < parseVal p2) :
    scanEmit parseVal
        (scanUpdate (scanUpdate (scanUpdate (scanUpdate [] p1 1) p1 2) p1 3) p2 10)
      = [(parseVal p1, 2, Real.sqrt 2 / 3), (parseVal p2, 10, 0)] := by
  have hdict :
      scanUpdate (scanUpdate (scanUpdate (scanUpdate [] p1 1) p1 2) p1 3) p2 10
        = [(p1, [(1 : ℝ), 2, 3]), (p2, [(10 : ℝ)])] := by
    simp [scanUpdate, hne]
  rw [hdict]
  unfold scanEmit
  simp only [List.map_cons, List.map_nil]
  rw [meanOf_example, stderrOf_example, meanOf_single, stderrOf_single]
  simp [sortTriples, insertTriple, hlt.le]

/-- C6 witness: the amended emission at the concrete keys `"1" < "10"`. -/
theorem scan_emission_amended_witness :
    ("1" : String) ≠ "10" ∧ parseValEx "1" < parseValEx "10" ∧
    scanEmit parseValEx
        (scanUpdate (scanUpdate (scanUpdate (scanUpdate [] "1" 1) "1" 2) "1" 3) "10" 10)
      = [(parseValEx "1", 2, Real.sqrt 2 / 3), (parseValEx "10", 10, 0)] :=
  ⟨by decide, by decide,
    scan_emission_amended parseValEx "1" "10" (by decide) (by decide)⟩

/-- C7: record-mode statistics.  The weighted running-average update with
weights `(n-1)/n` and `1/n` (line 273) is an exact running mean: after
any nonempty run the accumulator image equals the arithmetic mean of the
derived images; and when every pair carries the same signal count `c`,
the reported mean is `c` and the reported standard error is `0`
(lines 276-277). -/
theorem record_statistics (pairs : List ((Nat → Nat → ℝ) × ℝ)) (hne : pairs ≠ []) :
    ((runRecord pairs).imgAve
        = fun p q => ((pairs.map fun pr => pr.1 p q).sum) / (pairs.length : ℝ)) ∧
    (∀ c : ℝ, (∀ pr ∈ pairs, pr.2 = c) →
      meanOf (runRecord pairs).scs = c ∧ stderrOf (runRecord pairs).scs = 0) := by
  refine ⟨runRecord_ave pairs hne, ?_⟩
  intro c hc
  have hn : pairs.length ≠ 0 := by
    simpa [List.length_eq_zero] using hne
  have hscs : (runRecord pairs).scs = List.replicate pairs.length c := by
    rw [runRecord_scs]
    have hmem : ∀ b ∈ pairs.map Prod.snd, b = c := by
      intro b hb
      obtain ⟨pr, hpr, rfl⟩ := List.mem_map.mp hb
      exact hc pr hpr
    have := List.eq_replicate_of_mem hmem
    simpa using this
  rw [hscs]
  exact ⟨meanOf_replicate pairs.length hn c, stderrOf_replicate pairs.length hn c⟩

/-- C7 witness: a single pair with constant signal count 5. -/
theorem record_statistics_witness :
    pairEx ≠ [] ∧
    (((runRecord pairEx).imgAve
        = fun p q => ((pairEx.map fun pr => pr.1 p q).sum) / (pairEx.length : ℝ)) ∧
      (∀ c : ℝ, (∀ pr ∈ pairEx, pr.2 = c) →
        meanOf (runRecord pairEx).scs = c ∧ stderrOf (runRecord pairEx).scs = 0)) :=
  ⟨by simp [pairEx], record_statistics pairEx (by simp [pairEx])⟩

set_option maxHeartbeats 2000000 in
/-- C8 (code evaluation at the failing inputs): on the all-zero 2×2 ROI
region the moment phase of `gaussianfit` fails with an untyped
`ValueError` (from `int()` of the non-finite `0/0` mean), not with any
typed `FitDegenerate` value, and the caller `img_ctrl_update` propagates
the error instead of skipping the diagnostic update; and on a region
with nonzero total whose selected column sums to zero, the width
denominator `col.sum() = 0` is divided by unguarded, producing a
non-finite width estimate rather than a typed failure. -/
theorem gaussianfit_degenerate_unguarded :
    gaussianfitMoments [[0, 0], [0, 0]] = Except.error PyErr.valueError ∧
    imgCtrlUpdateFit true [[0, 0], [0, 0]] = Except.error PyErr.valueError ∧
    (gaussianfitMoments [[2, 5, -3], [-2, 3, -1]]).map GfMoments.x_width_sq
      = Except.ok none := by
  refine ⟨by norm_num [gaussianfitMoments, totalOf],
    by norm_num [imgCtrlUpdateFit, gaussianfitMoments, totalOf, Except.map], ?_⟩
  norm_num [gaussianfitMoments, totalOf, xWeighted, yWeighted, colSumAt, clipQ,
    natFloor, maxOf, List.range_succ, min_def, max_def, Except.map]

/-- C9 (code evaluation at the failing input): a signal frame saved with
counter 1 while Gaussian fitting is enabled gets the dataset name
`image_000001`, gzip compression at level 4, the measurement-type, ROI
and grayscale-image attributes — but *no* Gaussian-fit attributes,
because the guard at line 935 compares `img_type` to `"image"` while the
emitted types are `"background"`/`"signal"`; the same holds for a
background frame. -/
theorem save_dataset_missing_fit_attrs :
    (saveDataset "fluorescence" ⟨12, 40, 10, 30⟩ true "signal" 1 (constImg 0)
        [("amp", (3 : ℝ))]).name = "image_000001" ∧
    (saveDataset "fluorescence" ⟨12, 40, 10, 30⟩ true "signal" 1 (constImg 0)
        [("amp", (3 : ℝ))]).compression = "gzip" ∧
    (saveDataset "fluorescence" ⟨12, 40, 10, 30⟩ true "signal" 1 (constImg 0)
        [("amp", (3 : ℝ))]).compressionOpts = 4 ∧
    (saveDataset "fluorescence" ⟨12, 40, 10, 30⟩ true "signal" 1 (constImg 0)
        [("amp", (3 : ℝ))]).attrs
      = [("measurement type", AttrVal.str "fluorescence"),
         ("region of interest: xmin", AttrVal.nat 12),
         ("region of interest: xmax", AttrVal.nat 40),
         ("region of interest: ymin", AttrVal.nat 10),
         ("region of interest: ymax", AttrVal.nat 30),
         ("CLASS", AttrVal.str "IMAGE"),
         ("IMAGE_VERSION", AttrVal.str "1.2"),
         ("IMAGE_SUBCLASS", AttrVal.str "IMAGE_GRAYSCALE"),
         ("IMAGE_WHITE_IS_ZERO", AttrVal.nat 0)] ∧
    (saveDataset "absorption" ⟨12, 40, 10, 30⟩ true "background" 0 (constImg 0)
        [("amp", (3 : ℝ))]).attrs
      = [("measurement type", AttrVal.str "absorption"),
         ("region of interest: xmin", AttrVal.nat 12),
         ("region of interest: xmax", AttrVal.nat 40),
         ("region of interest: ymin", AttrVal.nat 10),
         ("region of interest: ymax", AttrVal.nat 30),
         ("CLASS", AttrVal.str "IMAGE"),
         ("IMAGE_VERSION", AttrVal.str "1.2"),
         ("IMAGE_SUBCLASS", AttrVal.str "IMAGE_GRAYSCALE"),
         ("IMAGE_WHITE_IS_ZERO", AttrVal.nat 0)] :=
  ⟨by decide, rfl, rfl, rfl, rfl⟩

/-- C10: the absorption-mode clipping does not modify the raw frame
recorded for emission and persistence — `np.clip` produces fresh arrays,
so the state's `img_dict["image"]` (and hence the image-data field of
the dataset later written by line 915) is exactly the original raw
frame, while only the derivation inputs are replaced by clipped copies;
in particular a raw pixel value 0 (< 1) is preserved even though the
derivation sees the clamped value 1. -/
theorem absorption_raw_frames_preserved (st : CamPairState)
    (measMode : String) (roi : Roi) (gaussianFit : Bool) (imgType : String)
    (counter : Nat) (fitParams : List (String × ℝ)) :
    (absorptionBranch st).1.imgDictImage = st.imgDictImage ∧
    (absorptionBranch st).1.image_bg = (fun p q => clip1 (st.image_bg p q)) ∧
    (absorptionBranch st).1.image_signal
      = (fun p q => clip1 (st.image_signal p q)) ∧
    (absorptionBranch st).2 = absorptionPost st.image_signal st.image_bg ∧
    (saveDataset measMode roi gaussianFit imgType counter
        (absorptionBranch st).1.imgDictImage fitParams).dataImg
      = st.imgDictImage ∧
    clip1 0 = 1 ∧
    (absorptionBranch ⟨constImg 0, constImg 0, constImg 0⟩).1.imgDictImage 0 0
      = 0 :=
  ⟨rfl, rfl, rfl, rfl, rfl, by norm_num [clip1], rfl⟩


/-! ### Helper lemmas for the TCP reassembly loop -/

lemma tcpLoop_empty (active : Bool) (b : Bool) (L : Nat) :
    tcpLoop active ⟨[], b, L⟩ = (⟨[], b, L⟩, []) := by
  unfold tcpLoop
  simp

lemma tcpLoop_stash (active : Bool) (data : List Nat) (L : Nat) (h : data.length < 4) :
    tcpLoop active ⟨data, false, L⟩ = (⟨data, false, L⟩, []) := by
  unfold tcpLoop
  have h4 : ¬ 4 ≤ data.length := by omega
  simp [h4]

lemma tcpLoop_awaiting (active : Bool) (data : List Nat) (len : Nat)
    (h : data.length < len) :
    tcpLoop active ⟨data, true, len⟩ = (⟨data, true, len⟩, []) := by
  unfold tcpLoop
  have h2 : ¬ len ≤ data.length := by omega
  simp [h2]

lemma tcpLoop_extract (active : Bool) (data : List Nat) (L : Nat)
    (h : 4 ≤ data.length) :
    tcpLoop active ⟨data, false, L⟩
      = tcpLoop active ⟨data.drop 4, true, beUint32 (data.take 4)⟩ := by
  conv_lhs => rw [tcpLoop]
  have h0 : 0 < data.length := by omega
  simp [h0, h]

lemma tcpLoop_dispatch (active : Bool) (data : List Nat) (len : Nat) (msg : String)
    (hlen : len ≤ data.length) (h0 : 0 < data.length)
    (hdec : decStr data = some msg) :
    tcpLoop active ⟨data, true, len⟩
      = ((tcpLoop active ⟨data.drop len, false, len⟩).1,
         dispatch active msg :: (tcpLoop active ⟨data.drop len, false, len⟩).2) := by
  conv_lhs => rw [tcpLoop]
  simp [h0, hlen, hdec]

lemma beUint32_beBytes4 {n : Nat} (h : n < 2 ^ 32) : beUint32 (beBytes4 n) = n := by
  simp [beBytes4, beUint32]
  omega

lemma decStr_encStr (msg : String) (h : ∀ c ∈ msg.data, c.toNat < 128) :
    decStr (encStr msg) = some msg := by
  unfold decStr encStr
  rw [if_pos]
  · congr 1
    rw [List.map_map]
    have hmap : msg.data.map (Char.ofNat ∘ Char.toNat) = msg.data.map id := by
      apply List.map_congr_left
      intro c _
      exact Char.ofNat_toNat c
    rw [hmap, List.map_id]
  · rw [List.all_eq_true]
    intro b hb
    obtain ⟨c, hc, rfl⟩ := List.mem_map.mp hb
    simpa using h c hc

lemma flatten_nil_of_no_empty {ls : List (List Nat)} (hne : [] ∉ ls)
    (h : ls.flatten = []) : ls = [] := by
  cases ls with
  | nil => rfl
  | cons c cs =>
    exfalso
    rw [List.flatten_cons] at h
    have h2 := List.append_eq_nil.mp h
    exact hne (by simp [h2.1])

/-- Helper: feeding the fragments of one length-prefixed message, where
no fragment crosses the message boundary, from any partial-progress
state (`k` bytes of the message already buffered and parsed) dispatches
exactly the message's action and returns to a clean state. -/
lemma tcpRun_message_aux (active : Bool) (msg : String) (P : List Nat) (n : Nat)
    (hP : P = encStr msg) (hn : n = P.length)
    (hdecP : decStr P = some msg)
    (hn0 : 0 < n) (hn32 : n < 2 ^ 32) :
    ∀ parts : List (List Nat), [] ∉ parts →
      ∀ k L, k < 4 + n →
        parts.flatten = (beBytes4 n ++ P).drop k →
        tcpRun active
            (if k < 4 then ⟨(beBytes4 n ++ P).take k, false, L⟩
             else ⟨P.take (k - 4), true, n⟩) parts
          = (⟨[], false, n⟩, [dispatch active msg]) := by
  have h4len : (beBytes4 n).length = 4 := by simp [beBytes4]
  have hMlen : (beBytes4 n ++ P).length = 4 + n := by
    simp [beBytes4, hn]
    omega
  have hMtake4 : (beBytes4 n ++ P).take 4 = beBytes4 n := by
    rw [← h4len]
    exact List.take_left _ _
  have hMdrop4 : (beBytes4 n ++ P).drop 4 = P := by
    rw [← h4len]
    exact List.drop_left _ _
  have hbe : beUint32 (beBytes4 n) = n := beUint32_beBytes4 hn32
  intro parts
  induction parts with
  | nil =>
    intro hnotin k L hk hflat
    exfalso
    have hdropnil : (beBytes4 n ++ P).drop k = [] := by
      rw [← hflat]
      rfl
    have hlek := List.drop_eq_nil_iff.mp hdropnil
    rw [hMlen] at hlek
    omega
  | cons c cs ih =>
    intro hnotin k L hk hflat
    have hc : c ≠ [] := fun hh => hnotin (by simp [hh])
    have hcs : [] ∉ cs := fun hh => hnotin (List.mem_cons_of_mem _ hh)
    have hc0 : 0 < c.length := List.length_pos.mpr hc
    rw [List.flatten_cons] at hflat
    have hcval : ((beBytes4 n ++ P).drop k).take c.length = c := by
      rw [← hflat]
      exact List.take_left _ _
    have hcsval : cs.flatten = (beBytes4 n ++ P).drop (k + c.length) := by
      have h1 : cs.flatten = ((beBytes4 n ++ P).drop k).drop c.length := by
        rw [← hflat]
        exact (List.drop_left _ _).symm
      rw [h1, List.drop_drop, Nat.add_comm]
    have hclen : c.length ≤ 4 + n - k := by
      have hlen := congrArg List.length hcval
      rw [List.length_take, List.length_drop, hMlen] at hlen
      omega
    simp only [tcpRun]
    by_cases hk4 : k < 4
    · rw [if_pos hk4]
      have hdata : (beBytes4 n ++ P).take k ++ c
          = (beBytes4 n ++ P).take (k + c.length) := by
        conv_lhs => rw [← hcval]
        exact (List.take_add _ _ _).symm
      have hrecv0 : tcpRecv active ⟨(beBytes4 n ++ P).take k, false, L⟩ c
          = tcpLoop active ⟨(beBytes4 n ++ P).take (k + c.length), false, L⟩ := by
        rw [tcpRecv, if_neg hc]
        rw [show (⟨(beBytes4 n ++ P).take k, false, L⟩ : TcpState).data ++ c
            = (beBytes4 n ++ P).take (k + c.length) from hdata]
      have hlentake : ((beBytes4 n ++ P).take (k + c.length)).length
          = min (k + c.length) (4 + n) := by
        rw [List.length_take, hMlen]
      rcases Nat.lt_or_ge (k + c.length) (4 + n) with hkm | hkm
      · by_cases hkm4 : k + c.length < 4
        · have hrecv : tcpRecv active ⟨(beBytes4 n ++ P).take k, false, L⟩ c
              = (⟨(beBytes4 n ++ P).take (k + c.length), false, L⟩, []) := by
            rw [hrecv0, tcpLoop_stash]
            rw [hlentake]
            omega
          rw [hrecv]
          have hih := ih hcs (k + c.length) L hkm hcsval
          rw [if_pos hkm4] at hih
          rw [hih]
          simp
        · have hkm4' : 4 ≤ k + c.length := by omega
          have htt : ((beBytes4 n ++ P).take (k + c.length)).take 4
              = beBytes4 n := by
            rw [List.take_take, Nat.min_eq_left hkm4', hMtake4]
          have htd : ((beBytes4 n ++ P).take (k + c.length)).drop 4
              = P.take (k + c.length - 4) := by
            rw [List.drop_take, hMdrop4]
          have hrecv : tcpRecv active ⟨(beBytes4 n ++ P).take k, false, L⟩ c
              = (⟨P.take (k + c.length - 4), true, n⟩, []) := by
            rw [hrecv0, tcpLoop_extract]
            · rw [htt, htd, hbe, tcpLoop_awaiting]
              rw [List.length_take, hn]
              omega
            · rw [hlentake]
              omega
          rw [hrecv]
          have hih := ih hcs (k + c.length) L hkm hcsval
          rw [if_neg (by omega)] at hih
          rw [hih]
          simp
      · have hkmeq : k + c.length = 4 + n := by omega
        have hfull : (beBytes4 n ++ P).take (k + c.length) = beBytes4 n ++ P := by
          rw [hkmeq, ← hMlen, List.take_length]
        have hrecv : tcpRecv active ⟨(beBytes4 n ++ P).take k, false, L⟩ c
            = (⟨[], false, n⟩, [dispatch active msg]) := by
          rw [hrecv0, hfull, tcpLoop_extract]
          · rw [hMtake4, hMdrop4, hbe,
              tcpLoop_dispatch active P n msg (by omega) (by omega) hdecP]
            rw [hn, List.drop_length, tcpLoop_empty]
          · omega
        rw [hrecv]
        have hcsnil : cs = [] := by
          apply flatten_nil_of_no_empty hcs
          rw [hcsval, hkmeq, ← hMlen, List.drop_length]
        subst hcsnil
        simp [tcpRun]
    · rw [if_neg hk4]
      have hk4' : 4 ≤ k := by omega
      have hdropk : (beBytes4 n ++ P).drop k = P.drop (k - 4) := by
        conv_lhs => rw [show k = (beBytes4 n).length + (k - 4) by rw [h4len]; omega]
        simp [List.drop_append]
      have hdata : P.take (k - 4) ++ c = P.take (k - 4 + c.length) := by
        conv_lhs => rw [← hcval, hdropk]
        exact (List.take_add _ _ _).symm
      have hrecv0 : tcpRecv active ⟨P.take (k - 4), true, n⟩ c
          = tcpLoop active ⟨P.take (k - 4 + c.length), true, n⟩ := by
        rw [tcpRecv, if_neg hc]
        rw [show (⟨P.take (k - 4), true, n⟩ : TcpState).data ++ c
            = P.take (k - 4 + c.length) from hdata]
      rcases Nat.lt_or_ge (k + c.length) (4 + n) with hkm | hkm
      · have hrecv : tcpRecv active ⟨P.take (k - 4), true, n⟩ c
            = (⟨P.take (k - 4 + c.length), true, n⟩, []) := by
          rw [hrecv0, tcpLoop_awaiting]
          rw [List.length_take, hn]
          omega
        rw [hrecv]
        have hih := ih hcs (k + c.length) L hkm hcsval
        rw [if_neg (by omega)] at hih
        rw [show k + c.length - 4 = k - 4 + c.length by omega] at hih
        rw [hih]
        simp
      · have hkmeq : k + c.length = 4 + n := by omega
        have hfull : P.take (k - 4 + c.length) = P := by
          rw [show k - 4 + c.length = n by omega, hn, List.take_length]
        have hrecv : tcpRecv active ⟨P.take (k - 4), true, n⟩ c
            = (⟨[], false, n⟩, [dispatch active msg]) := by
          rw [hrecv0, hfull,
            tcpLoop_dispatch active P n msg (by omega) (by omega) hdecP]
          rw [hn, List.drop_length, tcpLoop_empty]
        rw [hrecv]
        have hcsnil : cs = [] := by
          apply flatten_nil_of_no_empty hcs
          rw [hcsval, hkmeq, ← hMlen, List.drop_length]
        subst hcsnil
        simp [tcpRun]

lemma tcpRun_append (active : Bool) :
    ∀ (l1 l2 : List (List Nat)) (st : TcpState),
      tcpRun active st (l1 ++ l2)
        = ((tcpRun active (tcpRun active st l1).1 l2).1,
           (tcpRun active st l1).2 ++ (tcpRun active (tcpRun active st l1).1 l2).2) := by
  intro l1
  induction l1 with
  | nil =>
    intro l2 st
    simp [tcpRun]
  | cons c cs ih =>
    intro l2 st
    simp only [List.cons_append, tcpRun, List.append_eq]
    rw [ih]
    simp [List.append_assoc]

/-- Helper: a run over any delivery schedule in which every `recv`
returns a nonempty piece of a single message (no delivery spans two
messages) dispatches exactly one action per message, in order. -/
lemma tcpRun_messages (active : Bool) (msgs : List String)
    (fragss : List (List (List Nat)))
    (hmatch : List.Forall₂ (fun msg parts =>
      parts.flatten = encodeMsg msg ∧ [] ∉ parts) msgs fragss)
    (hwf : ∀ msg ∈ msgs, (∀ ch ∈ msg.data, ch.toNat < 128) ∧
      0 < (encStr msg).length ∧ (encStr msg).length < 2 ^ 32) :
    ∀ L, (tcpRun active ⟨[], false, L⟩ fragss.flatten).2 = specActions active msgs ∧
      (tcpRun active ⟨[], false, L⟩ fragss.flatten).1.data = [] ∧
      (tcpRun active ⟨[], false, L⟩ fragss.flatten).1.lengthGet = false := by
  revert hwf
  induction hmatch with
  | nil =>
    intro hwf L
    simp [tcpRun, specActions]
  | @cons m parts ms rest hm hrest ih =>
    intro hwf L
    have hwfm := hwf m (List.mem_cons_self _ _)
    have hflat0 : parts.flatten
        = (beBytes4 (encStr m).length ++ encStr m).drop 0 := by
      rw [List.drop_zero]
      exact hm.1
    have haux := tcpRun_message_aux active m (encStr m) (encStr m).length rfl rfl
      (decStr_encStr m hwfm.1) hwfm.2.1 hwfm.2.2 parts hm.2 0 L (by omega) hflat0
    rw [if_pos (by omega)] at haux
    simp only [List.take_zero] at haux
    obtain ⟨ha, hd, hf⟩ := ih (fun msg hmem => hwf msg (List.mem_cons_of_mem _ hmem))
      ((encStr m).length)
    simp only [List.flatten_cons, tcpRun_append, haux]
    simp [specActions, ha, hd, hf]

/-- C3 counterexample: a single `recv` delivering the two messages
`"Status?"` and `"Stop"` batched together.  Because line 113 decodes the
*entire* buffer, the first dispatch sees the payload
`"Status?\x00\x00\x00\x04Stop"` — which matches neither `"Status?"` nor
`"Stop"`, so it is written verbatim to the scan-configuration file and
the start signal is emitted, instead of the status reply the claim
requires. -/
theorem tcp_batched_counterexample :
    (tcpRun false tcpInit [encodeMsg "Status?" ++ encodeMsg "Stop"]).2
      = [TcpAction.scanConfig "Status?\x00\x00\x00\x04Stop", TcpAction.stopSignal] ∧
    (tcpRun false tcpInit [encodeMsg "Status?" ++ encodeMsg "Stop"]).2
      ≠ specActions false ["Status?", "Stop"] := by
  have hloop :
      tcpLoop false ⟨[0, 0, 0, 7, 83, 116, 97, 116, 117, 115, 63,
        0, 0, 0, 4, 83, 116, 111, 112], false, 0⟩
        = (⟨[], false, 4⟩,
           [TcpAction.scanConfig "Status?\x00\x00\x00\x04Stop", TcpAction.stopSignal]) := by
    rw [tcpLoop_extract false _ 0 (by decide)]
    have e1 : tcpLoop false
        ⟨([0, 0, 0, 7, 83, 116, 97, 116, 117, 115, 63,
          0, 0, 0, 4, 83, 116, 111, 112] : List Nat).drop 4, true,
          beUint32 (([0, 0, 0, 7, 83, 116, 97, 116, 117, 115, 63,
          0, 0, 0, 4, 83, 116, 111, 112] : List Nat).take 4)⟩
        = tcpLoop false ⟨[83, 116, 97, 116, 117, 115, 63,
          0, 0, 0, 4, 83, 116, 111, 112], true, 7⟩ := rfl
    rw [e1]
    rw [tcpLoop_dispatch false _ 7 "Status?\x00\x00\x00\x04Stop"
      (by decide) (by decide) (by decide)]
    have e2 : tcpLoop false ⟨([83, 116, 97, 116, 117, 115, 63,
        0, 0, 0, 4, 83, 116, 111, 112] : List Nat).drop 7, false, 7⟩
        = tcpLoop false ⟨[0, 0, 0, 4, 83, 116, 111, 112], false, 7⟩ := rfl
    rw [e2]
    rw [tcpLoop_extract false _ 7 (by decide)]
    have e3 : tcpLoop false ⟨([0, 0, 0, 4, 83, 116, 111, 112] : List Nat).drop 4, true,
        beUint32 (([0, 0, 0, 4, 83, 116, 111, 112] : List Nat).take 4)⟩
        = tcpLoop false ⟨[83, 116, 111, 112], true, 4⟩ := rfl
    rw [e3]
    rw [tcpLoop_dispatch false _ 4 "Stop" (by decide) (by decide) (by decide)]
    have e4 : tcpLoop false ⟨([83, 116, 111, 112] : List Nat).drop 4, false, 4⟩
        = tcpLoop false ⟨[], false, 4⟩ := rfl
    rw [e4, tcpLoop_empty]
    decide
  have hbytes : encodeMsg "Status?" ++ encodeMsg "Stop"
      = [0, 0, 0, 7, 83, 116, 97, 116, 117, 115, 63,
         0, 0, 0, 4, 83, 116, 111, 112] := by
    decide
  have hmain : (tcpRun false tcpInit [encodeMsg "Status?" ++ encodeMsg "Stop"]).2
      = [TcpAction.scanConfig "Status?\x00\x00\x00\x04Stop", TcpAction.stopSignal] := by
    simp only [tcpRun, tcpRecv, tcpInit, hbytes]
    rw [if_neg (by decide)]
    simp only [List.nil_append]
    rw [hloop]
    simp [tcpRun]
  refine ⟨hmain, ?_⟩
  rw [hmain]
  decide

/-- C3 (amended): provided every `recv` delivery is a nonempty fragment
of a single message (fragmentation within a message is arbitrary, but no
delivery spans two messages), the server dispatches exactly one action
per encoded message, in order, with the buffer left empty: `"Status?"`
yields one status reply (`"Running"` if the pipeline is active, else
`"Idle"`), `"Stop"` emits the stop signal with no reply, and any other
payload is written verbatim to the scan-configuration file with the
start signal emitted and `"Received"` replied.  Batched deliveries are
excluded: they make the dispatched payload include all following
buffered bytes (see the counterexample). -/
theorem tcp_framing_amended (active : Bool) (msgs : List String)
    (fragss : List (List (List Nat)))
    (hmatch : List.Forall₂ (fun msg parts =>
      parts.flatten = encodeMsg msg ∧ [] ∉ parts) msgs fragss)
    (hwf : ∀ msg ∈ msgs, (∀ ch ∈ msg.data, ch.toNat < 128) ∧
      0 < (encStr msg).length ∧ (encStr msg).length < 2 ^ 32) :
    (tcpRun active tcpInit fragss.flatten).2 = specActions active msgs ∧
    (tcpRun active tcpInit fragss.flatten).1.data = [] ∧
    dispatch active "Status?"
      = TcpAction.statusReply (if active then "Running" else "Idle") ∧
    dispatch active "Stop" = TcpAction.stopSignal ∧
    (∀ msg, msg ≠ "Status?" → msg ≠ "Stop"
      → dispatch active msg = TcpAction.scanConfig msg) := by
  obtain ⟨ha, hd, -⟩ := tcpRun_messages active msgs fragss hmatch hwf 0
  refine ⟨ha, hd, rfl, rfl, ?_⟩
  intro msg h1 h2
  rw [dispatch, if_neg h1, if_neg h2]

/-- C3 witness: the specification's own test — `"Status?"` delivered
split across three partial reads (2 bytes, then 5 bytes, then the
remaining 4) yields exactly one dispatched action. -/
theorem tcp_framing_amended_witness :
    List.Forall₂ (fun msg parts =>
        parts.flatten = encodeMsg msg ∧ [] ∉ parts)
      ["Status?"] [[[0, 0], [0, 7, 83, 116, 97], [116, 117, 115, 63]]] ∧
    (∀ msg ∈ ["Status?"], (∀ ch ∈ msg.data, ch.toNat < 128) ∧
      0 < (encStr msg).length ∧ (encStr msg).length < 2 ^ 32) ∧
    (tcpRun false tcpInit
        ([[[0, 0], [0, 7, 83, 116, 97], [116, 117, 115, 63]]] :
          List (List (List Nat))).flatten).2
      = specActions false ["Status?"] :=
  ⟨List.Forall₂.cons ⟨by decide, by decide⟩ List.Forall₂.nil,
   by decide,
   (tcp_framing_amended false ["Status?"]
      [[[0, 0], [0, 7, 83, 116, 97], [116, 117, 115, 63]]]
      (List.Forall₂.cons ⟨by decide, by decide⟩ List.Forall₂.nil)
      (by decide)).1⟩

end FragCam
